import Mathlib

set_option linter.unusedVariables false

/-
Verification of the request-orchestration engine of the callhub client
(`callhub/callhub.py`): the batch dispatcher `_handle_requests`, the pager
`_get_paged_data`, the do-not-contact reverse-lookup cache used by
`remove_dnc`, and the upload precondition `_assert_fields_exist`.

The embedding is shallow: network I/O is modelled by an oracle `exec` that
maps a request descriptor (and the dispatch round it is executed in, i.e. the
`current_retry_count` of the dispatching call) to either a transport failure
(`Except.error ()`, a raised exception of the underlying HTTP library) or a
`Response`.  Python exceptions become `Except.error` values; mutation becomes
explicit state passing.  As ghost instrumentation, the dispatcher additionally
returns the list of wave sizes (the number of requests simultaneously awaiting
a response each time the settle barrier runs); this output is write-only and
never influences control flow.
-/

/-- An HTTP response as the orchestration engine observes it: the status code
and the JSON fields named `count` and `results` that the paging code reads
(other payload is opaque to the engine and omitted). -/
structure Response (Item : Type) where
  status_code : Nat
  count : Nat
  results : List Item
deriving DecidableEq, Repr

/-- A request descriptor, the dict `{"func": ..., "func_params": ..., "expected_status": ...}`
built by the caller-facing operations.  `func_params` is the payload that identifies the
request (for page requests, the 1-based page number); `expected_status` is the declared
success status code (`0` plays the role of a falsy/absent expected status, which the
dispatcher's check `requests_list[i]["expected_status"] and ...` skips). -/
structure ReqDescriptor (π : Type) where
  func_params : π
  expected_status : Nat
deriving DecidableEq, Repr

/-- The wave bound of `_handle_requests`: `batch_size = 500`. -/
def batch_size : Nat := 500

/-- The inner settling loop of `_handle_requests` (lines 283-296): every future of the
current wave is resolved in submission order; `.result()` re-raises a transport failure
(uncaught, so it aborts the whole dispatch).  Each obtained response is checked against
`requests_list[i]` where `i` is the index at which the barrier fired — the wave-closing
descriptor `checker` — NOT against the descriptor that produced the response; on a status
mismatch the pair `(requests_list[i], exception)` is recorded as an error (the exception
wraps the offending response, which we keep as the second component). -/
def settleWave {π Item : Type} (checker : ReqDescriptor π) :
    List (Except Unit (Response Item)) →
    Except Unit (List (Response Item) × List (ReqDescriptor π × Response Item))
  | [] => .ok ([], [])
  | .error e :: _ => .error e
  | .ok r :: rest =>
    match settleWave checker rest with
    | .error e => .error e
    | .ok (succ, errs) =>
      if checker.expected_status ≠ 0 ∧ r.status_code ≠ checker.expected_status then
        .ok (succ, (checker, r) :: errs)
      else
        .ok (r :: succ, errs)

/-- The main loop of `_handle_requests` (lines 276-297): requests are submitted in order
(`exec1 req` is the future), and whenever `i % batch_size == 0` or the last request has
been submitted, the whole awaiting wave is settled before the loop continues.  The third
result component is ghost instrumentation recording the size of each settled wave (the
number of requests simultaneously outstanding when the barrier ran). -/
def handleLoop {π Item : Type} (exec1 : ReqDescriptor π → Except Unit (Response Item)) :
    Nat → List (ReqDescriptor π) → List (Except Unit (Response Item)) →
    Except Unit (List (Response Item) × List (ReqDescriptor π × Response Item) × List Nat)
  | _, [], _ => .ok ([], [], [])
  | i, req :: rest, awaiting =>
    let awaiting2 := awaiting ++ [exec1 req]
    if i % batch_size = 0 ∨ rest.length = 0 then
      match settleWave req awaiting2 with
      | .error e => .error e
      | .ok (succ, errs) =>
        match handleLoop exec1 (i + 1) rest [] with
        | .error e => .error e
        | .ok (succ2, errs2, waves) =>
          .ok (succ ++ succ2, errs ++ errs2, awaiting2.length :: waves)
    else
      handleLoop exec1 (i + 1) rest awaiting2

/-- The function `_handle_requests` (lines 260-304).  After the main loop, if errors were
recorded, `retry=True` and `current_retry_count < 1`, the first components of the recorded
error pairs are re-dispatched once (`exec` receives the round number, so a request may
behave differently when re-executed); the retry successes are appended to the successes
and the retry errors replace the error list.  Wave-size ghost output is concatenated
across rounds. -/
def _handle_requests {π Item : Type} (exec : Nat → ReqDescriptor π → Except Unit (Response Item))
    (requests_list : List (ReqDescriptor π)) (retry : Bool) (current_retry_count : Nat) :
    Except Unit (List (Response Item) × List (ReqDescriptor π × Response Item) × List Nat) :=
  match handleLoop (exec current_retry_count) 0 requests_list [] with
  | .error e => .error e
  | .ok (responses, errors, waves) =>
    if h : errors.length ≠ 0 ∧ retry = true ∧ current_retry_count < 1 then
      match _handle_requests exec (errors.map Prod.fst) true (current_retry_count + 1) with
      | .error e => .error e
      | .ok (new_responses, errors2, waves2) =>
        .ok (responses ++ new_responses, errors2, waves ++ waves2)
    else
      .ok (responses, errors, waves)
termination_by 1 - current_retry_count
decreasing_by
  obtain ⟨-, -, hlt⟩ := h
  omega

/-- Projection of the ghost wave-size output of a dispatch result. -/
def wavesOf {π Item : Type}
    (x : Except Unit (List (Response Item) × List (ReqDescriptor π × Response Item) × List Nat)) :
    List Nat :=
  match x with
  | .ok (_, _, w) => w
  | .error _ => []

/-- Exceptions that `_get_paged_data` can raise: the RuntimeError on a bad first-page
status (line 227), the ZeroDivisionError from `limit/page_size` when page 1 has no
results (line 242), the RuntimeError carrying the dispatch errors (line 251), and an
uncaught transport exception. -/
inductive PagedError (Item : Type)
  | badFirstStatus (code : Nat)
  | zeroDivisionError
  | dispatchErrors (errs : List (ReqDescriptor Nat × Response Item))
  | transport
deriving DecidableEq, Repr

/-- The effective bound `limit = min(first_page["count"], limit)` of line 238; `none`
models the default `limit = math.inf`. -/
def effLimit (count : Nat) : Option Nat → Nat
  | none => count
  | some l => min count l

/-- The page-request descriptor built at lines 245-248: a GET of the collection url with
`params={"page": p}` and expected status 200; the payload is the 1-based page number. -/
def pageDesc (p : Nat) : ReqDescriptor Nat :=
  { func_params := p, expected_status := 200 }

/-- The function `_get_paged_data` (lines 214-258).  `first` is the outcome of the initial
un-paged GET; `exec` is the oracle for the page GETs dispatched (with retry left at its
default `False`) through `_handle_requests`.  `math.ceil(limit/page_size)` on integers is
`(limit + page_size - 1) / page_size`, guarded here by the ZeroDivisionError case that
Python's division raises first.  The second component counts the GETs issued: 1 for the
initial fetch plus every dispatched page request (the sum of the ghost wave sizes); when
an uncaught transport exception aborts the dispatch mid-flight the count is not tracked
(no claim reads it on that path). -/
def _get_paged_data {Item : Type}
    (first : Except Unit (Response Item))
    (exec : Nat → ReqDescriptor Nat → Except Unit (Response Item))
    (limit : Option Nat) :
    Except (PagedError Item) (List Item) × Nat :=
  match first with
  | .error _ => (.error .transport, 1)
  | .ok first_page =>
    if first_page.status_code ≠ 200 then
      (.error (.badFirstStatus first_page.status_code), 1)
    else if first_page.count = 0 ∨ limit = some 0 then
      (.ok [], 1)
    else
      let lim := effLimit first_page.count limit
      let page_size := first_page.results.length
      if page_size = 0 then
        (.error .zeroDivisionError, 1)
      else
        let num_pages := (lim + page_size - 1) / page_size
        let requests := (List.range num_pages).map (fun i => pageDesc (i + 1))
        match _handle_requests exec requests false 0 with
        | .error _ => (.error .transport, 1)
        | .ok (responses_list, errors, waves) =>
          if errors.length ≠ 0 then
            (.error (.dispatchErrors errors), 1 + waves.sum)
          else
            let paged_data := (responses_list.map Response.results).flatten
            (.ok (paged_data.take lim), 1 + waves.sum)

/-- A consistent paginated server: an ordered collection `items` served in slices of
`page_size_srv` items.  Page `p` (1-based) returns the slice starting at `(p-1)*page_size_srv`,
the reported `count` is the collection length, and every request succeeds with status 200. -/
structure PagedServer (Item : Type) where
  items : List Item
  page_size_srv : Nat

/-- The item list of page `p` of a consistent server. -/
def pageResults {Item : Type} (s : PagedServer Item) (p : Nat) : List Item :=
  (s.items.drop ((p - 1) * s.page_size_srv)).take s.page_size_srv

/-- The response of page `p` of a consistent server. -/
def pageResponse {Item : Type} (s : PagedServer Item) (p : Nat) : Response Item :=
  { status_code := 200, count := s.items.length, results := pageResults s p }

/-- An execution oracle for a consistent server: every page GET succeeds, in every round. -/
def serverExec {Item : Type} (s : PagedServer Item) :
    Nat → ReqDescriptor Nat → Except Unit (Response Item) :=
  fun _ d => .ok (pageResponse s d.func_params)

/-- One record of the remote dnc_contacts collection, with the list id and the contact id
already parsed out of their URLs (the source reads `dnc_contact["dnc"].split("/")[-2]` and
`dnc_contact["url"].split("/")[-2]`; URL formatting is an excluded collaborator). -/
structure DncContact where
  phone_number : String
  dnc_list_id : String
  dnc_contact_id : String
deriving DecidableEq, Repr

/-- One value of the reverse-lookup cache: the dict
`{"list_id": ..., "name": ..., "dnc_contact_id": ...}` built by `pretty_format_dnc_data`. -/
structure DncRec where
  list_id : String
  name : String
  dnc_contact_id : String
deriving DecidableEq, Repr

/-- The cache `self.dnc_cache`: a Python dict modelled as an association list in key
insertion order, keys unique. -/
abbrev DncCache := List (String × List DncRec)

/-- An append to `defaultdict(list)` under key `phone`, preserving dict insertion order. -/
def addToGroup (groups : DncCache) (phone : String) (rec : DncRec) : DncCache :=
  if phone ∈ groups.map Prod.fst then
    groups.map (fun kv => if kv.1 = phone then (kv.1, kv.2 ++ [rec]) else kv)
  else
    groups ++ [(phone, [rec])]

/-- `pretty_format_dnc_data` (lines 315-324): groups the dnc contact records by phone
number into `{"list_id", "name", "dnc_contact_id"}` entries.  `names` stands for the
id-to-name dict fetched by `get_dnc_lists`, modelled as a total lookup since no claim
concerns a list id missing from it. -/
def pretty_format_dnc_data (names : String → String) (dnc_contacts : List DncContact) :
    DncCache :=
  dnc_contacts.foldl
    (fun groups c =>
      addToGroup groups c.phone_number
        { list_id := c.dnc_list_id, name := names c.dnc_list_id,
          dnc_contact_id := c.dnc_contact_id })
    []

/-- `get_dnc_phones` (lines 326-339): one full fetch of the remote dnc_contacts collection
followed by pretty-formatting.  The paging of the fetch is `_get_paged_data` (verified
separately); here the fetched collection is the parameter `remote`. -/
def get_dnc_phones (names : String → String) (remote : List DncContact) : DncCache :=
  pretty_format_dnc_data names remote

/-- Python dict access `self.dnc_cache[number]`: `none` models a KeyError. -/
def cacheLookup (cache : DncCache) (number : String) : Option (List DncRec) :=
  (cache.find? (fun kv => kv.1 == number)).map Prod.snd

/-- The per-number filter of the `dnc_ids_to_purge` loop (lines 393-397): with a
`dnc_list` argument, only entries of that list are purged; without, all entries are. -/
def entryPurgeIds (dnc_list : Option String) (entries : List DncRec) : List String :=
  entries.filterMap (fun e =>
    match dnc_list with
    | some dl => if e.list_id = dl then some e.dnc_contact_id else none
    | none => some e.dnc_contact_id)

/-- The `dnc_ids_to_purge` accumulation (lines 391-397): iterates the requested numbers in
order; the dict access `self.dnc_cache[number]` raises KeyError (`.error number`) at the
first number with no cache entry. -/
def dnc_ids_to_purge (cache : DncCache) (dnc_list : Option String) :
    List String → Except String (List String)
  | [] => .ok []
  | n :: rest =>
    match cacheLookup cache n with
    | none => .error n
    | some entries =>
      match dnc_ids_to_purge cache dnc_list rest with
      | .error k => .error k
      | .ok ids => .ok (entryPurgeIds dnc_list entries ++ ids)

/-- Exceptions that `remove_dnc` can raise: the uncaught KeyError of the cache lookup, or
an uncaught transport exception from the DELETE dispatch. -/
inductive RemoveDncErr
  | keyError (number : String)
  | transport
deriving DecidableEq, Repr

/-- `remove_dnc` (lines 370-406).  Takes the instance's current `dnc_cache` and returns,
besides the dispatch errors the source returns, the new cache and a count of cache
rebuilds (calls of `get_dnc_phones`).  The rebuild happens exactly when the requested
numbers are not all keys of the cache (line 388); the purge ids are then resolved from
the (possibly rebuilt) cache, and one DELETE per purge id is dispatched through
`_handle_requests` with retry left at its default `False` (line 405), its outcomes given
by the oracle `delExec`. -/
def remove_dnc (delExec : Nat → ReqDescriptor String → Except Unit (Response Unit))
    (names : String → String) (remote : List DncContact) (dnc_cache : DncCache)
    (numbers : List String) (dnc_list : Option String) :
    Except RemoveDncErr (List (ReqDescriptor String × Response Unit)) × DncCache × Nat :=
  let st :=
    if ∀ n ∈ numbers, n ∈ dnc_cache.map Prod.fst then (dnc_cache, 0)
    else (get_dnc_phones names remote, 1)
  match dnc_ids_to_purge st.1 dnc_list numbers with
  | .error k => (.error (.keyError k), st.1, st.2)
  | .ok ids =>
    let requests := ids.map (fun i =>
      ({ func_params := i, expected_status := 204 } : ReqDescriptor String))
    match _handle_requests delExec requests false 0 with
    | .error _ => (.error .transport, st.1, st.2)
    | .ok (_, errors, _) => (.ok errors, st.1, st.2)

/-- Python's `str.lower()` applied to a field name: the per-character lowercase map.
(Core's String.toLower is extensionally the same function but is defined by
non-structural recursion and does not reduce in the kernel, so the embedding maps over
the character list directly.) -/
def strLower (s : String) : String :=
  String.mk (s.data.map Char.toLower)

/-- `_collect_fields` (lines 71-77): the set of field names used across a list of
contacts.  A contact is modelled as its list of field names (the engine never reads the
values) and the set as a list up to membership. -/
def _collect_fields (contacts : List (List String)) : List String :=
  contacts.flatten

/-- `_assert_fields_exist` (lines 79-100): lowercases both the fields collected from the
contacts and the account's field names and checks set inclusion; on failure raises
LookupError (`.error ()`), otherwise returns True. -/
def _assert_fields_exist (contacts : List (List String)) (fields_in_callhub : List String) :
    Except Unit Bool :=
  if ∀ f ∈ (_collect_fields contacts).map strLower,
      f ∈ fields_in_callhub.map strLower then
    .ok true
  else
    .error ()

/-- `bulk_create` (lines 139-178), scoped to the upload precondition: the CSV/body
construction and the response parsing are excluded collaborators (spec section 1), so the
network side is abstracted to the value `upload`.  The second component counts upload
POSTs sent; the POST is reached only after `_assert_fields_exist` returns True, so a
LookupError leaves it at 0. -/
def bulk_create {α : Type} (upload : α) (contacts : List (List String))
    (fields_in_callhub : List String) : Except Unit α × Nat :=
  match _assert_fields_exist contacts fields_in_callhub with
  | .error e => (.error e, 0)
  | .ok _ => (.ok upload, 1)

/-- Spec variant of `_get_paged_data`, following the spec words of section 4.4 step 4
("dispatch them as a batch via section 4.2 (with retry enabled)"): identical to the source
embedding except that the page batch is dispatched with `retry=True`.  Used only to
compare the source behaviour against the claimed one. -/
def getPagedDataSpecRetry {Item : Type}
    (first : Except Unit (Response Item))
    (exec : Nat → ReqDescriptor Nat → Except Unit (Response Item))
    (limit : Option Nat) :
    Except (PagedError Item) (List Item) × Nat :=
  match first with
  | .error _ => (.error .transport, 1)
  | .ok first_page =>
    if first_page.status_code ≠ 200 then
      (.error (.badFirstStatus first_page.status_code), 1)
    else if first_page.count = 0 ∨ limit = some 0 then
      (.ok [], 1)
    else
      let lim := effLimit first_page.count limit
      let page_size := first_page.results.length
      if page_size = 0 then
        (.error .zeroDivisionError, 1)
      else
        let num_pages := (lim + page_size - 1) / page_size
        let requests := (List.range num_pages).map (fun i => pageDesc (i + 1))
        match _handle_requests exec requests true 0 with
        | .error _ => (.error .transport, 1)
        | .ok (responses_list, errors, waves) =>
          if errors.length ≠ 0 then
            (.error (.dispatchErrors errors), 1 + waves.sum)
          else
            let paged_data := (responses_list.map Response.results).flatten
            (.ok (paged_data.take lim), 1 + waves.sum)

/-- A descriptor over `Nat` payloads, for concrete dispatch scenarios. -/
def natDesc (j e : Nat) : ReqDescriptor Nat :=
  { func_params := j, expected_status := e }

/-- A response with a given status whose `results` marker identifies which execution
produced it. -/
def natResp (st j : Nat) : Response Nat :=
  { status_code := st, count := 0, results := [j] }

/-- An oracle under which every request obtains, in every round, precisely the status its
own descriptor expects (marker: the descriptor payload). -/
def ownStatusExec : Nat → ReqDescriptor Nat → Except Unit (Response Nat) :=
  fun _ x => .ok (natResp x.expected_status x.func_params)

/-- An oracle that makes the request with payload 1 fail (status 404) in the initial
round only; every round-1 (retry) execution succeeds with marker `10 + payload`, so the
returned responses reveal which descriptors were re-executed. -/
def retryProbeExec : Nat → ReqDescriptor Nat → Except Unit (Response Nat) :=
  fun rnd x =>
    .ok (if rnd = 0 then natResp (if x.func_params = 1 then 404 else 200) x.func_params
         else natResp 200 (10 + x.func_params))

/-- The spec's end-to-end scenario server: a collection of 55 items served two per page. -/
def server55 : PagedServer Nat :=
  { items := List.range 55, page_size_srv := 2 }

/-- A six-item collection served two per page (3 pages). -/
def server6 : PagedServer Nat :=
  { items := List.range 6, page_size_srv := 2 }

/-- A flaky oracle for `server6`: the GET of page 2 fails with status 500 in the initial
dispatch round and succeeds in a retry round; all other page GETs always succeed. -/
def flakyExec : Nat → ReqDescriptor Nat → Except Unit (Response Nat) :=
  fun rnd x =>
    .ok (if x.func_params = 2 ∧ rnd = 0
      then { status_code := 500, count := 6, results := [] }
      else pageResponse server6 x.func_params)

/-- A DELETE oracle under which every dnc purge request succeeds with status 204. -/
def delOk : Nat → ReqDescriptor String → Except Unit (Response Unit) :=
  fun _ _ => .ok { status_code := 204, count := 0, results := [] }

/-- With `retry=False` the dispatcher is exactly one run of its main loop: the retry
guard `errors and retry and current_retry_count < 1` is false. -/
theorem handle_requests_no_retry {π Item : Type}
    (exec : Nat → ReqDescriptor π → Except Unit (Response Item))
    (rl : List (ReqDescriptor π)) (cnt : Nat) :
    _handle_requests exec rl false cnt = handleLoop (exec cnt) 0 rl [] := by
  rw [_handle_requests]
  cases h : handleLoop (exec cnt) 0 rl [] with
  | error e => rfl
  | ok x =>
    obtain ⟨R, E, W⟩ := x
    dsimp only
    rw [dif_neg]
    rintro ⟨-, h2, -⟩
    exact Bool.noConfusion h2

/-- With `current_retry_count ≥ 1` the dispatcher never recurses again. -/
theorem handle_requests_stop {π Item : Type}
    (exec : Nat → ReqDescriptor π → Except Unit (Response Item))
    (rl : List (ReqDescriptor π)) (retry : Bool) (cnt : Nat) (hcnt : 1 ≤ cnt) :
    _handle_requests exec rl retry cnt = handleLoop (exec cnt) 0 rl [] := by
  rw [_handle_requests]
  cases h : handleLoop (exec cnt) 0 rl [] with
  | error e => rfl
  | ok x =>
    obtain ⟨R, E, W⟩ := x
    dsimp only
    rw [dif_neg]
    rintro ⟨-, -, hlt⟩
    omega

/-- A wave of responses all matching the wave checker's expected status settles with no
recorded error and the responses in order. -/
theorem settleWave_all_match {π Item : Type} (checker : ReqDescriptor π)
    (resps : List (Response Item))
    (h : ∀ r ∈ resps, r.status_code = checker.expected_status) :
    settleWave checker (resps.map Except.ok) = .ok (resps, []) := by
  induction resps with
  | nil => rfl
  | cons r rest ih =>
    simp only [List.map_cons, settleWave]
    rw [ih (fun x hx => h x (List.mem_cons_of_mem _ hx))]
    dsimp only
    rw [if_neg (show ¬(checker.expected_status ≠ 0 ∧
        r.status_code ≠ checker.expected_status) from
      fun hc => hc.2 (h r (List.mem_cons_self _ _)))]

/-- A wave of obtained responses (no transport failure) always settles. -/
theorem settleWave_ok {π Item : Type} (checker : ReqDescriptor π)
    (resps : List (Response Item)) :
    ∃ S E, settleWave checker (resps.map Except.ok) = .ok (S, E) := by
  induction resps with
  | nil => exact ⟨[], [], rfl⟩
  | cons r rest ih =>
    obtain ⟨S, E, h⟩ := ih
    simp only [List.map_cons, settleWave, h]
    by_cases hc : checker.expected_status ≠ 0 ∧ r.status_code ≠ checker.expected_status
    · rw [if_pos hc]; exact ⟨S, (checker, r) :: E, rfl⟩
    · rw [if_neg hc]; exact ⟨r :: S, E, rfl⟩

/-- With a checker that does expect a status, a wave containing a response of a different
status settles with at least one recorded error. -/
theorem settleWave_errs_ne_nil {π Item : Type} (checker : ReqDescriptor π)
    (he : checker.expected_status ≠ 0) :
    ∀ (resps : List (Response Item)) S E,
      (∃ r ∈ resps, r.status_code ≠ checker.expected_status) →
      settleWave checker (resps.map Except.ok) = .ok (S, E) → E ≠ [] := by
  intro resps
  induction resps with
  | nil =>
    rintro S E ⟨r, hr, -⟩ -
    exact absurd hr (List.not_mem_nil r)
  | cons r rest ih =>
    intro S E hbad hres
    simp only [List.map_cons, settleWave] at hres
    cases hsw : settleWave checker (rest.map Except.ok) with
    | error e =>
      rw [hsw] at hres
      exact Except.noConfusion hres
    | ok p =>
      obtain ⟨S1, E1⟩ := p
      rw [hsw] at hres
      dsimp only at hres
      by_cases hc : checker.expected_status ≠ 0 ∧ r.status_code ≠ checker.expected_status
      · rw [if_pos hc] at hres
        have hE : E = (checker, r) :: E1 :=
          (congrArg (fun q => q.2) (Except.ok.inj hres)).symm
        rw [hE]
        simp
      · rw [if_neg hc] at hres
        obtain ⟨x, hx, hxs⟩ := hbad
        rcases List.mem_cons.mp hx with rfl | hx2
        · exact absurd ⟨he, hxs⟩ hc
        · have hE : E = E1 :=
            (congrArg (fun q => q.2) (Except.ok.inj hres)).symm
          rw [hE]
          exact ih S1 E1 ⟨x, hx2, hxs⟩ hsw

/-- A main-loop run whose futures all resolve (no transport failure) settles every
submitted request: it returns `.ok` and the ghost wave sizes sum to the number of
requests submitted (the side condition rules out entering the loop with pending futures
and nothing left to submit, which the source loop cannot do). -/
theorem handleLoop_total {π Item : Type} (f : ReqDescriptor π → Response Item) :
    ∀ (l : List (ReqDescriptor π)) (i : Nat) (aw : List (Response Item)),
      (l = [] → aw = []) →
      ∃ S E W, handleLoop (fun d => .ok (f d)) i l (aw.map Except.ok) = .ok (S, E, W) ∧
        W.sum = l.length + aw.length := by
  intro l
  induction l with
  | nil =>
    intro i aw hnil
    rw [hnil rfl]
    exact ⟨[], [], [], rfl, rfl⟩
  | cons req rest ih =>
    intro i aw hnil
    simp only [handleLoop]
    rw [show (aw.map Except.ok ++ [Except.ok (f req)] :
        List (Except Unit (Response Item))) = (aw ++ [f req]).map Except.ok by simp]
    by_cases hb : i % batch_size = 0 ∨ rest.length = 0
    · rw [if_pos hb]
      obtain ⟨S1, E1, hsw⟩ := settleWave_ok req (aw ++ [f req])
      obtain ⟨S2, E2, W2, h2, hsum2⟩ := ih (i + 1) [] (fun _ => rfl)
      rw [show ((List.map Except.ok [] : List (Except Unit (Response Item)))) = [] from rfl] at h2
      rw [hsw, h2]
      dsimp only
      refine ⟨_, _, _, rfl, ?_⟩
      simp only [List.sum_cons, hsum2, List.length_map, List.length_append,
        List.length_cons, List.length_nil]
      omega
    · rw [if_neg hb]
      have hrest : rest ≠ [] := by
        intro h
        exact hb (Or.inr (by simp [h]))
      obtain ⟨S2, E2, W2, h2, hsum2⟩ := ih (i + 1) (aw ++ [f req]) (fun h => absurd h hrest)
      refine ⟨S2, E2, W2, h2, ?_⟩
      rw [hsum2]
      simp
      omega

/-- A main-loop run in which every request resolves to a response whose status equals the
uniform expected status `e` of all the submitted descriptors settles with no error and
the responses in submission order (pending responses first). -/
theorem handleLoop_all_match {π Item : Type} (f : ReqDescriptor π → Response Item)
    (e : Nat) :
    ∀ (l : List (ReqDescriptor π)) (i : Nat) (aw : List (Response Item)),
      (l = [] → aw = []) →
      (∀ d ∈ l, d.expected_status = e) →
      (∀ d ∈ l, (f d).status_code = e) →
      (∀ r ∈ aw, r.status_code = e) →
      ∃ W, handleLoop (fun d => .ok (f d)) i l (aw.map Except.ok) =
        .ok (aw ++ l.map f, [], W) := by
  intro l
  induction l with
  | nil =>
    intro i aw hnil _ _ _
    rw [hnil rfl]
    exact ⟨[], rfl⟩
  | cons req rest ih =>
    intro i aw hnil hexp hst haw
    have hexp1 : req.expected_status = e := hexp req (List.mem_cons_self _ _)
    have haw2 : ∀ r ∈ aw ++ [f req], r.status_code = req.expected_status := by
      intro r hr
      rw [hexp1]
      rcases List.mem_append.mp hr with h1 | h1
      · exact haw r h1
      · rw [List.mem_singleton.mp h1]
        exact hst req (List.mem_cons_self _ _)
    simp only [handleLoop]
    rw [show (aw.map Except.ok ++ [Except.ok (f req)] :
        List (Except Unit (Response Item))) = (aw ++ [f req]).map Except.ok by simp]
    by_cases hb : i % batch_size = 0 ∨ rest.length = 0
    · rw [if_pos hb, settleWave_all_match req (aw ++ [f req]) haw2]
      obtain ⟨W2, h2⟩ := ih (i + 1) []
        (fun _ => rfl)
        (fun d hd => hexp d (List.mem_cons_of_mem _ hd))
        (fun d hd => hst d (List.mem_cons_of_mem _ hd))
        (fun r hr => absurd hr (List.not_mem_nil r))
      rw [show ((List.map Except.ok [] : List (Except Unit (Response Item)))) = [] from rfl] at h2
      rw [h2]
      dsimp only
      refine ⟨(aw ++ [f req]).length :: W2, ?_⟩
      simp
    · rw [if_neg hb]
      have hrest : rest ≠ [] := fun h => hb (Or.inr (by simp [h]))
      obtain ⟨W2, h2⟩ := ih (i + 1) (aw ++ [f req])
        (fun h => absurd h hrest)
        (fun d hd => hexp d (List.mem_cons_of_mem _ hd))
        (fun d hd => hst d (List.mem_cons_of_mem _ hd))
        (fun r hr => (haw2 r hr).trans hexp1)
      rw [h2]
      refine ⟨W2, ?_⟩
      simp

/-- A main-loop run over descriptors that all expect the nonzero status `e`, in which some
pending or future response has a status different from `e`, records at least one error. -/
theorem handleLoop_errs {π Item : Type} (f : ReqDescriptor π → Response Item) (e : Nat)
    (he : e ≠ 0) :
    ∀ (l : List (ReqDescriptor π)) (i : Nat) (aw : List (Response Item)) S E W,
      l ≠ [] →
      (∀ d ∈ l, d.expected_status = e) →
      ((∃ r ∈ aw, r.status_code ≠ e) ∨ (∃ d ∈ l, (f d).status_code ≠ e)) →
      handleLoop (fun d => .ok (f d)) i l (aw.map Except.ok) = .ok (S, E, W) →
      E ≠ [] := by
  intro l
  induction l with
  | nil =>
    intro i aw S E W hne
    exact absurd rfl hne
  | cons req rest ih =>
    intro i aw S E W _ hexp hbad hres
    have hexp1 : req.expected_status = e := hexp req (List.mem_cons_self _ _)
    simp only [handleLoop] at hres
    rw [show (aw.map Except.ok ++ [Except.ok (f req)] :
        List (Except Unit (Response Item))) = (aw ++ [f req]).map Except.ok by simp] at hres
    by_cases hb : i % batch_size = 0 ∨ rest.length = 0
    · rw [if_pos hb] at hres
      obtain ⟨S1, E1, hsw⟩ := settleWave_ok req (aw ++ [f req])
      rw [hsw] at hres
      dsimp only at hres
      cases hrec : handleLoop (fun d => Except.ok (f d)) (i + 1) rest [] with
      | error er =>
        rw [hrec] at hres
        exact Except.noConfusion hres
      | ok y =>
        obtain ⟨S2, E2, W2⟩ := y
        rw [hrec] at hres
        dsimp only at hres
        have hres2 : E1 ++ E2 = E := congrArg (fun q => q.2.1) (Except.ok.inj hres)
        by_cases hwave : (∃ r ∈ aw ++ [f req], r.status_code ≠ e)
        · have hE1 : E1 ≠ [] := by
            refine settleWave_errs_ne_nil req (hexp1 ▸ he) (aw ++ [f req]) S1 E1 ?_ hsw
            obtain ⟨r, hr, hrs⟩ := hwave
            exact ⟨r, hr, hexp1 ▸ hrs⟩
          intro hEnil
          rw [← hres2] at hEnil
          exact hE1 (List.append_eq_nil.mp hEnil).1
        · have hrest_bad : ∃ d ∈ rest, (f d).status_code ≠ e := by
            rcases hbad with ⟨r, hr, hrs⟩ | ⟨d, hd, hds⟩
            · exact absurd ⟨r, List.mem_append.mpr (Or.inl hr), hrs⟩ hwave
            · rcases List.mem_cons.mp hd with rfl | hd2
              · exact absurd ⟨f d, List.mem_append.mpr
                  (Or.inr (List.mem_singleton.mpr rfl)), hds⟩ hwave
              · exact ⟨d, hd2, hds⟩
          have hrest : rest ≠ [] := by
            obtain ⟨d, hd, -⟩ := hrest_bad
            exact fun h => absurd (h ▸ hd) (List.not_mem_nil d)
          have hE2 : E2 ≠ [] := by
            refine ih (i + 1) [] S2 E2 W2 hrest
              (fun d hd => hexp d (List.mem_cons_of_mem _ hd)) (Or.inr hrest_bad) ?_
            rw [show ((List.map Except.ok [] : List (Except Unit (Response Item)))) = []
              from rfl]
            exact hrec
          intro hEnil
          rw [← hres2] at hEnil
          exact hE2 (List.append_eq_nil.mp hEnil).2
    · rw [if_neg hb] at hres
      have hrest : rest ≠ [] := fun h => hb (Or.inr (by simp [h]))
      refine ih (i + 1) (aw ++ [f req]) S E W hrest
        (fun d hd => hexp d (List.mem_cons_of_mem _ hd)) ?_ hres
      rcases hbad with ⟨r, hr, hrs⟩ | ⟨d, hd, hds⟩
      · exact Or.inl ⟨r, List.mem_append.mpr (Or.inl hr), hrs⟩
      · rcases List.mem_cons.mp hd with rfl | hd2
        · exact Or.inl ⟨f d, List.mem_append.mpr (Or.inr (List.mem_singleton.mpr rfl)), hds⟩
        · exact Or.inr ⟨d, hd2, hds⟩

/-- Wave-size invariant of the main loop: entering iteration `i` with the pending-future
count bounded by `(i + 499) % 500` (0 at the real entry `i = 0`, `aw = []`), every settled
wave has at most 500 members.  The first barrier fires at `i = 0`, so no wave can grow
past the one settled at the next multiple of 500. -/
theorem handleLoop_wave_bound {π Item : Type}
    (exec1 : ReqDescriptor π → Except Unit (Response Item)) :
    ∀ (l : List (ReqDescriptor π)) (i : Nat) (aw : List (Except Unit (Response Item)))
      S E W,
      aw.length ≤ (i + 499) % 500 →
      handleLoop exec1 i l aw = .ok (S, E, W) →
      ∀ w ∈ W, w ≤ 500 := by
  intro l
  induction l with
  | nil =>
    intro i aw S E W _ hres w hw
    cases hres
    exact absurd hw (List.not_mem_nil w)
  | cons req rest ih =>
    intro i aw S E W hinv hres w hw
    simp only [handleLoop] at hres
    by_cases hb : i % batch_size = 0 ∨ rest.length = 0
    · rw [if_pos hb] at hres
      cases hsw : settleWave req (aw ++ [exec1 req]) with
      | error er =>
        rw [hsw] at hres
        exact Except.noConfusion hres
      | ok p =>
        obtain ⟨S1, E1⟩ := p
        rw [hsw] at hres
        dsimp only at hres
        cases hrec : handleLoop exec1 (i + 1) rest [] with
        | error er =>
          rw [hrec] at hres
          exact Except.noConfusion hres
        | ok y =>
          obtain ⟨S2, E2, W2⟩ := y
          rw [hrec] at hres
          dsimp only at hres
          have hW : (aw ++ [exec1 req]).length :: W2 = W :=
            congrArg (fun q => q.2.2) (Except.ok.inj hres)
          rw [← hW] at hw
          rcases List.mem_cons.mp hw with rfl | hw2
          · have : (i + 499) % 500 < 500 := Nat.mod_lt _ (by norm_num)
            simp only [List.length_append, List.length_cons, List.length_nil]
            omega
          · exact ih (i + 1) [] S2 E2 W2 (Nat.zero_le _) hrec w hw2
    · rw [if_neg hb] at hres
      have hmod : ¬ i % 500 = 0 := by
        intro h
        exact hb (Or.inl (by simpa [batch_size] using h))
      refine ih (i + 1) (aw ++ [exec1 req]) S E W ?_ hres w hw
      simp only [List.length_append, List.length_cons, List.length_nil]
      omega

/-- The full behaviour of a `retry=True` dispatch started at `current_retry_count = 0`
(as every call site starts it): one main-loop round, then, if errors were recorded, one
more main-loop round over the first components of the error pairs, whose successes are
appended and whose errors replace the error list. -/
theorem handle_requests_retry_eq {π Item : Type}
    (exec : Nat → ReqDescriptor π → Except Unit (Response Item))
    (rl : List (ReqDescriptor π)) :
    _handle_requests exec rl true 0 =
      match handleLoop (exec 0) 0 rl [] with
      | .error e => .error e
      | .ok (R, E, W) =>
        if E.length ≠ 0 then
          match handleLoop (exec 1) 0 (E.map Prod.fst) [] with
          | .error e => .error e
          | .ok (R2, E2, W2) => .ok (R ++ R2, E2, W ++ W2)
        else .ok (R, E, W) := by
  rw [_handle_requests]
  cases h : handleLoop (exec 0) 0 rl [] with
  | error e => rfl
  | ok x =>
    obtain ⟨R, E, W⟩ := x
    dsimp only
    by_cases hE : E.length ≠ 0
    · rw [dif_pos ⟨hE, rfl, Nat.zero_lt_one⟩, if_pos hE,
        handle_requests_stop exec (E.map Prod.fst) true 1 (Nat.le_refl 1)]
    · rw [dif_neg (by rintro ⟨h1, -, -⟩; exact hE h1), if_neg hE]

/-- Status code of a consistent server's page response. -/
theorem pageResponse_status {Item : Type} (s : PagedServer Item) (p : Nat) :
    (pageResponse s p).status_code = 200 := rfl

/-- Reported count of a consistent server's page response. -/
theorem pageResponse_count {Item : Type} (s : PagedServer Item) (p : Nat) :
    (pageResponse s p).count = s.items.length := rfl

/-- Results of a consistent server's page response. -/
theorem pageResponse_results {Item : Type} (s : PagedServer Item) (p : Nat) :
    (pageResponse s p).results = pageResults s p := rfl

/-- Page 1 of a consistent server is the first `page_size_srv` items, so the natural page
size the pager derives from it is `min page_size_srv count`. -/
theorem pageResults_one {Item : Type} (s : PagedServer Item) :
    pageResults s 1 = s.items.take s.page_size_srv := by
  simp [pageResults]

/-- Evaluation of `_get_paged_data` once the first page is a 200 with nonzero count, the
limit is not 0, and page 1 has at least one result: the page batch for pages
`1..ceil(lim/page_size)` is dispatched through `_handle_requests` with retry disabled,
errors abort, and otherwise the page results are concatenated and truncated. -/
theorem get_paged_main {Item : Type} (fp : Response Item)
    (exec : Nat → ReqDescriptor Nat → Except Unit (Response Item)) (limit : Option Nat)
    (h200 : fp.status_code = 200) (hc : fp.count ≠ 0) (hl : limit ≠ some 0)
    (hp : fp.results.length ≠ 0) :
    _get_paged_data (.ok fp) exec limit =
      match _handle_requests exec
          ((List.range ((effLimit fp.count limit + fp.results.length - 1) /
            fp.results.length)).map (fun i => pageDesc (i + 1))) false 0 with
      | .error _ => (.error .transport, 1)
      | .ok (responses_list, errors, waves) =>
        if errors.length ≠ 0 then
          (.error (.dispatchErrors errors), 1 + waves.sum)
        else
          (.ok (((responses_list.map Response.results).flatten).take
            (effLimit fp.count limit)), 1 + waves.sum) := by
  unfold _get_paged_data
  dsimp only
  rw [if_neg (by simp [h200]), if_neg (by simp [hc, hl]), if_neg hp]

/-- C10: for every paginated endpoint whose first page reports a nonzero count (with a
nonzero caller limit) but returns an empty results list, `_get_paged_data` performs the
unguarded division `limit/page_size` with a derived page size of zero and raises
ZeroDivisionError — it neither returns a collection nor one of its classified
RuntimeErrors. -/
theorem c10_zero_division_on_empty_first_page {Item : Type} (fp : Response Item)
    (exec : Nat → ReqDescriptor Nat → Except Unit (Response Item)) (limit : Option Nat)
    (h200 : fp.status_code = 200) (hc : fp.count ≠ 0) (hl : limit ≠ some 0)
    (hz : fp.results = []) :
    _get_paged_data (.ok fp) exec limit = (.error .zeroDivisionError, 1) := by
  unfold _get_paged_data
  dsimp only
  rw [if_neg (by simp [h200]), if_neg (by simp [hc, hl]), if_pos (by simp [hz])]

/-- Witness for C10 at a concrete input: a first page reporting 5 items but carrying no
results, with no caller limit. -/
theorem c10_zero_division_on_empty_first_page_witness :
    _get_paged_data (.ok ({ status_code := 200, count := 5, results := [] } : Response Nat))
      (fun _ _ => .error ()) none = (.error .zeroDivisionError, 1) :=
  c10_zero_division_on_empty_first_page _ _ _ rfl (by decide) (by decide) rfl

/-- C1, counterexample: on the spec's own end-to-end scenario (55 items, page size 2,
caller limit 49) the pager issues 26 HTTP GETs — the initial fetch plus a batch that
re-issues pages 1..25 — not the claimed ceil(min(55,49)/2) = 25. -/
theorem c1_counterexample_26_gets_not_25 :
    (_get_paged_data (.ok (pageResponse server55 1)) (serverExec server55) (some 49)).2 = 26 ∧
    ¬ (_get_paged_data (.ok (pageResponse server55 1)) (serverExec server55) (some 49)).2 = 25 := by
  rw [get_paged_main (pageResponse server55 1) (serverExec server55) (some 49) rfl
    (by decide) (by decide) (by decide), handle_requests_no_retry]
  exact ⟨by rfl, by decide⟩

/-- C1, amended: for every consistent paginated collection with nonzero server page size,
a nonempty collection and a nonzero caller limit, `_get_paged_data` issues exactly
`1 + ceil(min(count, limit)/page_size)` page GETs in total — the initial page fetch plus
one batched GET per page index `1..ceil(min(count,limit)/page_size)` (page 1 is fetched
twice), where `page_size = min(page_size_srv, count)` is the length of page 1's results. -/
theorem c1_page_requests_amended {Item : Type} (s : PagedServer Item) (limit : Option Nat)
    (hs : s.page_size_srv ≠ 0) (hi : s.items ≠ []) (hl : limit ≠ some 0) :
    (_get_paged_data (.ok (pageResponse s 1)) (serverExec s) limit).2 =
      1 + (effLimit s.items.length limit + min s.page_size_srv s.items.length - 1) /
        min s.page_size_srv s.items.length := by
  have hlen0 : s.items.length ≠ 0 := fun h => hi (List.length_eq_zero.mp h)
  have hplen : (pageResponse s 1).results.length = min s.page_size_srv s.items.length := by
    rw [pageResponse_results, pageResults_one, List.length_take]
  have hp : (pageResponse s 1).results.length ≠ 0 := by
    rw [hplen]
    omega
  rw [get_paged_main _ _ _ (pageResponse_status s 1)
    (by rw [pageResponse_count]; exact hlen0) hl hp, handle_requests_no_retry]
  rw [show serverExec s 0 = (fun d => Except.ok (pageResponse s d.func_params)) from rfl]
  obtain ⟨S, E, W, hres, hsum⟩ := handleLoop_total (fun d => pageResponse s d.func_params)
    ((List.range ((effLimit (pageResponse s 1).count limit +
        (pageResponse s 1).results.length - 1) /
      (pageResponse s 1).results.length)).map (fun i => pageDesc (i + 1))) 0 []
    (fun _ => rfl)
  rw [show (List.map Except.ok ([] : List (Response Item))) = [] from rfl] at hres
  rw [hres]
  dsimp only
  rw [apply_ite Prod.snd]
  dsimp only
  rw [ite_self, hsum]
  simp only [List.length_map, List.length_range, List.length_nil, Nat.add_zero,
    pageResponse_count, hplen]

/-- Witness for C1's amended theorem on the end-to-end scenario: 1 + ceil(49/2) = 26. -/
theorem c1_page_requests_amended_witness :
    (_get_paged_data (.ok (pageResponse server55 1)) (serverExec server55) (some 49)).2 =
      1 + (effLimit (List.range 55).length (some 49) + min 2 (List.range 55).length - 1) /
        min 2 (List.range 55).length :=
  c1_page_requests_amended server55 (some 49) (by decide) (by decide) (by decide)

/-- Concatenating a consistent server's pages 1..m in ascending order gives the first
`m * page_size_srv` items of the collection. -/
theorem flatten_pageResults {Item : Type} (s : PagedServer Item) :
    ∀ m : Nat, ((List.range m).map (fun i => pageResults s (i + 1))).flatten =
      s.items.take (m * s.page_size_srv)
  | 0 => by simp
  | m + 1 => by
    rw [List.range_succ, List.map_append, List.flatten_append, flatten_pageResults s m]
    simp only [List.map_cons, List.map_nil, List.flatten_cons, List.flatten_nil,
      List.append_nil]
    rw [show pageResults s (m + 1) = (s.items.drop (m * s.page_size_srv)).take
      s.page_size_srv from by simp [pageResults], Nat.succ_mul, List.take_add]

/-- The effective bound never exceeds the reported count. -/
theorem effLimit_le (count : Nat) (limit : Option Nat) : effLimit count limit ≤ count := by
  cases limit <;> simp [effLimit]

/-- The effective bound is positive when the count is nonzero and the limit is not 0. -/
theorem effLimit_pos (count : Nat) (limit : Option Nat) (hc : count ≠ 0)
    (hl : limit ≠ some 0) : 1 ≤ effLimit count limit := by
  cases limit with
  | none => simp only [effLimit]; omega
  | some l =>
    have hl0 : l ≠ 0 := fun h => hl (by rw [h])
    simp only [effLimit]
    omega

/-- Ceiling-division bound: dispatching `ceil(lim/p)` pages of `sps` server items covers
`lim` items when `p = min sps count` is the derived page size and `lim ≤ count`. -/
theorem lim_le_pages_mul {lim sps count : Nat} (hsps : sps ≠ 0) (hcount : count ≠ 0)
    (hlim1 : 1 ≤ lim) (hlimc : lim ≤ count) :
    lim ≤ ((lim + min sps count - 1) / (min sps count)) * sps := by
  set p := min sps count with hp
  have hp0 : 0 < p := by omega
  have hdm := Nat.div_add_mod (lim + p - 1) p
  have hmlt : (lim + p - 1) % p < p := Nat.mod_lt _ hp0
  have hq : lim ≤ p * ((lim + p - 1) / p) := by
    generalize hX : p * ((lim + p - 1) / p) = X at hdm
    generalize hM : (lim + p - 1) % p = M at hdm hmlt
    omega
  have hps : p ≤ sps := by omega
  calc lim ≤ p * ((lim + p - 1) / p) := hq
    _ ≤ sps * ((lim + p - 1) / p) := Nat.mul_le_mul hps (Nat.le_refl _)
    _ = ((lim + p - 1) / p) * sps := Nat.mul_comm _ _

/-- C2: for every consistent paginated collection, with every page request succeeding,
`_get_paged_data` returns exactly `min(count, limit)` items — the ordered concatenation of
the server's page item lists in ascending page-index order truncated to `min(count,
limit)`, with no reordering and no deduplication — and returns the empty list when the
count or the caller limit is 0. -/
theorem c2_paged_aggregation {Item : Type} (s : PagedServer Item) (limit : Option Nat)
    (hs : s.page_size_srv ≠ 0) :
    (_get_paged_data (.ok (pageResponse s 1)) (serverExec s) limit).1 =
      .ok (s.items.take (effLimit s.items.length limit)) ∧
    (s.items.take (effLimit s.items.length limit)).length =
      effLimit s.items.length limit := by
  constructor
  · by_cases hcz : s.items.length = 0
    · unfold _get_paged_data
      dsimp only
      rw [if_neg (by simp [pageResponse_status]),
        if_pos (Or.inl (by rw [pageResponse_count]; exact hcz))]
      have hnil : s.items = [] := List.length_eq_zero.mp hcz
      simp [hnil]
    · by_cases hlz : limit = some 0
      · unfold _get_paged_data
        dsimp only
        rw [if_neg (by simp [pageResponse_status]), if_pos (Or.inr hlz)]
        simp [hlz, effLimit]
      · have hplen : (pageResponse s 1).results.length =
            min s.page_size_srv s.items.length := by
          rw [pageResponse_results, pageResults_one, List.length_take]
        have hp : (pageResponse s 1).results.length ≠ 0 := by
          rw [hplen]
          omega
        rw [get_paged_main _ _ _ (pageResponse_status s 1)
          (by rw [pageResponse_count]; exact hcz) hlz hp, handle_requests_no_retry,
          show serverExec s 0 = (fun d => Except.ok (pageResponse s d.func_params))
            from rfl]
        simp only [pageResponse_count, hplen]
        obtain ⟨W, hres⟩ := handleLoop_all_match
          (fun d => pageResponse s d.func_params) 200
          ((List.range ((effLimit s.items.length limit +
              min s.page_size_srv s.items.length - 1) /
            min s.page_size_srv s.items.length)).map (fun i => pageDesc (i + 1))) 0 []
          (fun _ => rfl)
          (by
            intro d hd
            obtain ⟨i, -, rfl⟩ := List.mem_map.mp hd
            rfl)
          (fun d _ => rfl)
          (fun r hr => absurd hr (List.not_mem_nil r))
        rw [show (List.map Except.ok ([] : List (Response Item))) = [] from rfl] at hres
        rw [hres]
        dsimp only
        rw [if_neg (by simp)]
        dsimp only
        rw [List.nil_append, List.map_map, List.map_map]
        rw [show ((Response.results ∘ fun d => pageResponse s d.func_params) ∘
            fun i => pageDesc (i + 1)) = (fun i => pageResults s (i + 1)) from rfl]
        rw [flatten_pageResults, List.take_take]
        have hcover := @lim_le_pages_mul (effLimit s.items.length limit)
          s.page_size_srv s.items.length hs hcz
          (effLimit_pos _ _ hcz hlz) (effLimit_le _ _)
        rw [Nat.min_eq_left hcover]
  · have hle := effLimit_le s.items.length limit
    simp only [List.length_take]
    omega

/-- Witness for C2: the 55-item two-per-page server with caller limit 49 yields exactly
the first 49 items. -/
theorem c2_paged_aggregation_witness :
    (_get_paged_data (.ok (pageResponse server55 1)) (serverExec server55) (some 49)).1 =
      .ok ((List.range 55).take (effLimit (List.range 55).length (some 49))) ∧
    ((List.range 55).take (effLimit (List.range 55).length (some 49))).length =
      effLimit (List.range 55).length (some 49) :=
  c2_paged_aggregation server55 (some 49) (by decide)

/-- C8, counterexample: the pager dispatches its page batch with retry left disabled, not
enabled.  Under an oracle where page 2 fails only in the initial round (and would succeed
on the one retry round), the source pager aborts with the dispatch errors, while the
spec's retry-enabled variant returns a collection — so the claim that the batch is
dispatched "with retry enabled" is false of the code.  (The recorded error also exhibits
the wave-indexing slip: the failing page-2 response is paired with the page-3
descriptor.) -/
theorem c8_counterexample_retry_disabled :
    (_get_paged_data (.ok (pageResponse server6 1)) flakyExec none).1 =
      .error (.dispatchErrors
        [(pageDesc 3, { status_code := 500, count := 6, results := [] })]) ∧
    (getPagedDataSpecRetry (.ok (pageResponse server6 1)) flakyExec none).1 =
      .ok [0, 1, 4, 5, 4, 5] := by
  constructor
  · rw [get_paged_main _ _ _ rfl (by decide) (by decide) (by decide),
      handle_requests_no_retry]
    rfl
  · unfold getPagedDataSpecRetry
    dsimp only
    rw [if_neg (by decide), if_neg (by decide), if_neg (by decide),
      handle_requests_retry_eq]
    rfl

/-- C8, amended: the pager dispatches the page batch without retry, and any page request
whose status is not 200 aborts the whole operation with a RuntimeError carrying the
recorded failures — a partial aggregation is never returned — after exactly one dispatch
of the `ceil(min(count,limit)/page_size)` page requests (plus the initial fetch). -/
theorem c8_failures_abort {Item : Type} (fp : Response Item)
    (f : ReqDescriptor Nat → Response Item) (limit : Option Nat)
    (h200 : fp.status_code = 200) (hc : fp.count ≠ 0) (hl : limit ≠ some 0)
    (hp : fp.results.length ≠ 0)
    (hbad : ∃ i, i < (effLimit fp.count limit + fp.results.length - 1) /
        fp.results.length ∧ (f (pageDesc (i + 1))).status_code ≠ 200) :
    ∃ E, E ≠ [] ∧
      (_get_paged_data (.ok fp) (fun _ d => .ok (f d)) limit).1 =
        .error (.dispatchErrors E) ∧
      (_get_paged_data (.ok fp) (fun _ d => .ok (f d)) limit).2 =
        1 + (effLimit fp.count limit + fp.results.length - 1) / fp.results.length := by
  rw [get_paged_main _ _ _ h200 hc hl hp, handle_requests_no_retry]
  obtain ⟨S, E, W, hres, hsum⟩ := handleLoop_total f
    ((List.range ((effLimit fp.count limit + fp.results.length - 1) /
      fp.results.length)).map (fun i => pageDesc (i + 1))) 0 [] (fun _ => rfl)
  rw [show (List.map Except.ok ([] : List (Response Item))) = [] from rfl] at hres
  have hlne : ((List.range ((effLimit fp.count limit + fp.results.length - 1) /
      fp.results.length)).map (fun i => pageDesc (i + 1))) ≠ [] := by
    obtain ⟨i, hi, -⟩ := hbad
    simp only [ne_eq, List.map_eq_nil_iff, List.range_eq_nil]
    omega
  have hEne : E ≠ [] := by
    obtain ⟨i, hi, hibad⟩ := hbad
    refine handleLoop_errs f 200 (by decide) _ 0 [] S E W hlne ?_ ?_ hres
    · intro d hd
      obtain ⟨j, -, rfl⟩ := List.mem_map.mp hd
      rfl
    · exact Or.inr ⟨pageDesc (i + 1),
        List.mem_map.mpr ⟨i, List.mem_range.mpr hi, rfl⟩, hibad⟩
  rw [hres]
  dsimp only
  rw [if_pos (fun h => hEne (List.length_eq_zero.mp h))]
  refine ⟨E, hEne, rfl, ?_⟩
  rw [hsum]
  simp only [List.length_map, List.length_range, List.length_nil, Nat.add_zero]

/-- Witness for C8's amended theorem: a six-item two-per-page collection where the page-2
GET returns status 500. -/
theorem c8_failures_abort_witness :
    ∃ E, E ≠ [] ∧
      (_get_paged_data (.ok (pageResponse server6 1))
        (fun _ d => .ok (if d.func_params = 2
          then { status_code := 500, count := 6, results := [] }
          else pageResponse server6 d.func_params)) none).1 =
        .error (.dispatchErrors E) ∧
      (_get_paged_data (.ok (pageResponse server6 1))
        (fun _ d => .ok (if d.func_params = 2
          then { status_code := 500, count := 6, results := [] }
          else pageResponse server6 d.func_params)) none).2 =
        1 + (effLimit (pageResponse server6 1).count none +
          (pageResponse server6 1).results.length - 1) /
          (pageResponse server6 1).results.length :=
  c8_failures_abort (pageResponse server6 1)
    (fun d => if d.func_params = 2
      then { status_code := 500, count := 6, results := [] }
      else pageResponse server6 d.func_params) none
    rfl (by decide) (by decide) (by decide) ⟨1, by decide, by decide⟩

/-- C3, code evaluation at the failing input: three descriptors all expecting 200 are
dispatched with retry enabled; in the initial round only the request of descriptor 1
fails (status 404).  The settle loop checks the wave `{1, 2}` against `requests_list[2]`
and records the error pair with descriptor 2, so the one retry round re-executes
descriptor 2 (its round-1 marker response `natResp 200 12` appears in the successes)
instead of the descriptor that failed, descriptor 1, whose failure silently disappears
from the returned errors.  The claim — that the retry dispatch contains exactly the
descriptors that failed initially — is the intended behaviour, which this indexing slip
(`requests_list[i]` with the wave-closing `i` inside the inner loop) violates. -/
theorem c3_retry_re_executes_wave_closing_descriptor :
    _handle_requests retryProbeExec [natDesc 0 200, natDesc 1 200, natDesc 2 200] true 0 =
      .ok ([natResp 200 0, natResp 200 2, natResp 200 12], [], [1, 2, 1]) := by
  rw [handle_requests_retry_eq]
  rfl

/-- C4, code evaluation at the failing input: descriptors 0 and 1 expect 200, descriptor
2 expects 201, and every request obtains exactly the status its own descriptor expects —
under the claim nothing fails.  The code settles the wave `{1, 2}` against
`requests_list[2]` (expected 201), so descriptor 1's matching 200 response is classified
as a failure and recorded paired with descriptor 2: the returned errors are
`[(natDesc 2 201, natResp 200 1)]`, not `[]`, and the pair does not hold the descriptor
that produced the offending response. -/
theorem c4_classification_uses_wave_closing_descriptor :
    _handle_requests ownStatusExec [natDesc 0 200, natDesc 1 200, natDesc 2 201] false 0 =
      .ok ([natResp 200 0, natResp 201 2], [(natDesc 2 201, natResp 200 1)], [1, 2]) := by
  rw [handle_requests_no_retry]
  rfl

set_option maxRecDepth 10000 in
/-- C5, counterexample: dispatching 502 identical requests settles in waves of sizes
1, 500 and 1 — the barrier `i % 500 == 0` fires after the very first submission — not in
the consecutive waves of size 500 (then the 2 leftover) that "partitioned into waves of
size 500" describes. -/
theorem c5_counterexample_wave_partition :
    wavesOf (_handle_requests ownStatusExec
        (List.replicate 502 (natDesc 0 200)) false 0) = [1, 500, 1] ∧
    ([1, 500, 1] : List Nat) ≠ [500, 2] := by
  constructor
  · rw [handle_requests_no_retry]
    rfl
  · decide

/-- C5, amended: the dispatcher never has more than 500 requests simultaneously
outstanding.  Requests are submitted in submission order and settled at strict barriers
(every wave member resolved before the next submission); the waves are the first
submission alone, then runs of up to 500 — every recorded simultaneous-outstanding count
is at most 500, across the initial round and the retry round alike. -/
theorem c5_wave_bound {π Item : Type}
    (exec : Nat → ReqDescriptor π → Except Unit (Response Item))
    (rl : List (ReqDescriptor π)) (retry : Bool) (cnt : Nat)
    (R : List (Response Item)) (E : List (ReqDescriptor π × Response Item)) (W : List Nat)
    (hres : _handle_requests exec rl retry cnt = .ok (R, E, W)) :
    ∀ w ∈ W, w ≤ 500 := by
  rcases Nat.lt_or_ge cnt 1 with hlt | hge
  · have hc0 : cnt = 0 := by omega
    subst hc0
    cases retry with
    | false =>
      rw [handle_requests_no_retry] at hres
      exact handleLoop_wave_bound (exec 0) rl 0 [] R E W (by simp) hres
    | true =>
      rw [handle_requests_retry_eq] at hres
      cases h1 : handleLoop (exec 0) 0 rl [] with
      | error e =>
        rw [h1] at hres
        exact Except.noConfusion hres
      | ok x =>
        obtain ⟨R1, E1, W1⟩ := x
        rw [h1] at hres
        dsimp only at hres
        by_cases hE : E1.length ≠ 0
        · rw [if_pos hE] at hres
          cases h2 : handleLoop (exec 1) 0 (E1.map Prod.fst) [] with
          | error e =>
            rw [h2] at hres
            exact Except.noConfusion hres
          | ok y =>
            obtain ⟨R2, E2, W2⟩ := y
            rw [h2] at hres
            dsimp only at hres
            have hW : W1 ++ W2 = W := congrArg (fun q => q.2.2) (Except.ok.inj hres)
            intro w hw
            rw [← hW] at hw
            rcases List.mem_append.mp hw with h | h
            · exact handleLoop_wave_bound (exec 0) rl 0 [] R1 E1 W1 (by simp) h1 w h
            · exact handleLoop_wave_bound (exec 1) (E1.map Prod.fst) 0 [] R2 E2 W2
                (by simp) h2 w h
        · rw [if_neg hE] at hres
          have hW : W1 = W := congrArg (fun q => q.2.2) (Except.ok.inj hres)
          rw [← hW]
          exact handleLoop_wave_bound (exec 0) rl 0 [] R1 E1 W1 (by simp) h1
  · rw [handle_requests_stop exec rl retry cnt hge] at hres
    exact handleLoop_wave_bound (exec cnt) rl 0 [] R E W (by simp) hres

/-- Witness for C5's amended theorem: a concrete two-request dispatch settles in waves
`[1, 1]`, and the bound theorem applies to its first wave. -/
theorem c5_wave_bound_witness :
    _handle_requests ownStatusExec [natDesc 0 200, natDesc 1 200] false 0 =
      .ok ([natResp 200 0, natResp 200 1], [], [1, 1]) ∧ (1 : Nat) ≤ 500 := by
  have hres : _handle_requests ownStatusExec [natDesc 0 200, natDesc 1 200] false 0 =
      .ok ([natResp 200 0, natResp 200 1], [], [1, 1]) := by
    rw [handle_requests_no_retry]
    rfl
  exact ⟨hres, c5_wave_bound ownStatusExec [natDesc 0 200, natDesc 1 200] false 0
    _ _ _ hres 1 (by decide)⟩

/-- C6: for every call to `remove_dnc`, if every requested phone number is a key of the
instance's dnc_cache, the cache is kept (the cached entries resolve the purge ids) and no
cache-rebuild fetch is performed; if any requested number is absent, the entire cache is
discarded and replaced by exactly one full fetch of the remote DNC collection before the
per-number resolution — never a partial or incremental refresh. -/
theorem c6_cache_rebuild_policy
    (delExec : Nat → ReqDescriptor String → Except Unit (Response Unit))
    (names : String → String) (remote : List DncContact) (cache : DncCache)
    (numbers : List String) (dnc_list : Option String) :
    (remove_dnc delExec names remote cache numbers dnc_list).2 =
      if ∀ n ∈ numbers, n ∈ cache.map Prod.fst then (cache, 0)
      else (get_dnc_phones names remote, 1) := by
  unfold remove_dnc
  by_cases h : ∀ n ∈ numbers, n ∈ cache.map Prod.fst
  · rw [if_pos h]
    dsimp only
    split
    · rfl
    · split <;> rfl
  · rw [if_neg h]
    dsimp only
    split
    · rfl
    · split <;> rfl

/-- Grouping a record under `phone` adds no cache key other than `phone` itself. -/
theorem mem_keys_addToGroup (groups : DncCache) (phone n : String) (rec : DncRec)
    (hn : n ∈ (addToGroup groups phone rec).map Prod.fst) :
    n ∈ groups.map Prod.fst ∨ n = phone := by
  unfold addToGroup at hn
  split at hn
  · left
    rw [List.map_map] at hn
    rw [show (Prod.fst ∘ fun kv : String × List DncRec =>
        if kv.1 = phone then (kv.1, kv.2 ++ [rec]) else kv) = Prod.fst from
      funext fun kv => by
        rw [Function.comp_apply, apply_ite Prod.fst, ite_self]] at hn
    exact hn
  · rw [List.map_append] at hn
    rcases List.mem_append.mp hn with h | h
    · exact Or.inl h
    · right
      simpa using h

/-- Keys of the pretty-formatted mapping built from any starting group come from the
starting group's keys or from the grouped contacts' phone numbers. -/
theorem keys_of_dnc_fold (names : String → String) :
    ∀ (contacts : List DncContact) (groups : DncCache) (n : String),
      n ∈ (contacts.foldl
        (fun groups c =>
          addToGroup groups c.phone_number
            { list_id := c.dnc_list_id, name := names c.dnc_list_id,
              dnc_contact_id := c.dnc_contact_id }) groups).map Prod.fst →
      n ∈ groups.map Prod.fst ∨ n ∈ contacts.map DncContact.phone_number := by
  intro contacts
  induction contacts with
  | nil =>
    intro groups n h
    exact Or.inl h
  | cons c rest ih =>
    intro groups n h
    rw [List.foldl_cons] at h
    rcases ih _ n h with h1 | h1
    · rcases mem_keys_addToGroup _ _ _ _ h1 with h2 | h2
      · exact Or.inl h2
      · exact Or.inr (by simp [h2])
    · exact Or.inr (List.mem_cons_of_mem _ h1)

/-- A phone number with no record in the remote dnc_contacts collection has no key in the
rebuilt cache. -/
theorem not_mem_keys_get_dnc_phones (names : String → String) (remote : List DncContact)
    (n : String) (hnorec : n ∉ remote.map DncContact.phone_number) :
    n ∉ (get_dnc_phones names remote).map Prod.fst := by
  intro h
  rcases keys_of_dnc_fold names remote [] n h with h1 | h1
  · exact absurd h1 (by simp)
  · exact hnorec h1

/-- Looking up a number that is not a cache key is a KeyError (`none`). -/
theorem cacheLookup_eq_none (cache : DncCache) (n : String)
    (h : n ∉ cache.map Prod.fst) : cacheLookup cache n = none := by
  unfold cacheLookup
  rw [List.find?_eq_none.mpr]
  · rfl
  · intro kv hkv
    intro he
    exact h (List.mem_map.mpr ⟨kv, hkv, beq_iff_eq.mp he⟩)

/-- The purge-id accumulation raises a KeyError as soon as some requested number has no
cache entry. -/
theorem dnc_ids_to_purge_error (cache : DncCache) (dnc_list : Option String) :
    ∀ (numbers : List String) (n : String), n ∈ numbers → cacheLookup cache n = none →
      ∃ k, dnc_ids_to_purge cache dnc_list numbers = .error k := by
  intro numbers
  induction numbers with
  | nil =>
    intro n h
    exact absurd h (List.not_mem_nil n)
  | cons m rest ih =>
    intro n hn hnone
    unfold dnc_ids_to_purge
    cases hm : cacheLookup cache m with
    | none => exact ⟨m, rfl⟩
    | some entries =>
      rcases List.mem_cons.mp hn with rfl | hn2
      · rw [hm] at hnone
        exact Option.noConfusion hnone
      · obtain ⟨k, hk⟩ := ih n hn2 hnone
        rw [hk]
        exact ⟨k, rfl⟩

/-- C9: calling `remove_dnc` with a number that has no DNC record in the remote data and
is absent from the current cache triggers the wholesale rebuild, which leaves that number
without a cache entry; the subsequent per-number dict access then raises an uncaught
KeyError, so the call terminates with an exception instead of returning an errors
list. -/
theorem c9_keyerror_on_number_without_records
    (delExec : Nat → ReqDescriptor String → Except Unit (Response Unit))
    (names : String → String) (remote : List DncContact) (cache : DncCache)
    (numbers : List String) (dnc_list : Option String) (n : String)
    (hn : n ∈ numbers) (hmiss : n ∉ cache.map Prod.fst)
    (hnorec : n ∉ remote.map DncContact.phone_number) :
    ∃ k, (remove_dnc delExec names remote cache numbers dnc_list).1 =
      .error (.keyError k) := by
  have hnot : ¬ ∀ m ∈ numbers, m ∈ cache.map Prod.fst := fun h => hmiss (h n hn)
  have hlook : cacheLookup (get_dnc_phones names remote) n = none :=
    cacheLookup_eq_none _ _ (not_mem_keys_get_dnc_phones names remote n hnorec)
  obtain ⟨k, hk⟩ :=
    dnc_ids_to_purge_error (get_dnc_phones names remote) dnc_list numbers n hn hlook
  refine ⟨k, ?_⟩
  unfold remove_dnc
  rw [if_neg hnot]
  dsimp only
  rw [hk]

/-- Witness for C9: removing the never-listed number "5551234" with an empty cache and an
empty remote collection raises KeyError. -/
theorem c9_keyerror_witness :
    ∃ k, (remove_dnc delOk (fun _ => "Default DNC List") [] [] ["5551234"] none).1 =
      .error (.keyError k) :=
  c9_keyerror_on_number_without_records delOk (fun _ => "Default DNC List") [] []
    ["5551234"] none "5551234" (by decide) (by decide) (by decide)

/-- The field precondition passes exactly when every field of every record is present,
after lowercasing both sides, among the account's field names. -/
theorem assert_fields_spec (contacts : List (List String))
    (fields_in_callhub : List String) :
    _assert_fields_exist contacts fields_in_callhub =
      if ∀ record ∈ contacts, ∀ field ∈ record,
          strLower field ∈ fields_in_callhub.map strLower
      then .ok true else .error () := by
  have hiff : (∀ f ∈ (_collect_fields contacts).map strLower,
      f ∈ fields_in_callhub.map strLower) ↔
      (∀ record ∈ contacts, ∀ field ∈ record,
        strLower field ∈ fields_in_callhub.map strLower) := by
    constructor
    · intro h record hrec field hf
      refine h _ (List.mem_map.mpr ⟨field, ?_, rfl⟩)
      exact List.mem_flatten.mpr ⟨record, hrec, hf⟩
    · intro h f hf
      obtain ⟨g, hg, rfl⟩ := List.mem_map.mp hf
      obtain ⟨record, hrec, hgrec⟩ := List.mem_flatten.mp hg
      exact h record hrec g hgrec
  unfold _assert_fields_exist
  by_cases hc : ∀ f ∈ (_collect_fields contacts).map strLower,
      f ∈ fields_in_callhub.map strLower
  · rw [if_pos hc, if_pos (hiff.mp hc)]
  · rw [if_neg hc, if_neg (fun hx => hc (hiff.mpr hx))]

/-- C7: the upload precondition compares field names case-insensitively — in particular a
record with field "Custom_Field" passes against known field "custom_field" — and
`bulk_create` sends its upload POST exactly when every record's every field is
(case-insensitively) among the account's fields; any record with an unknown field makes
it raise the LookupError with zero POSTs sent, blocking the entire batch before any
network upload. -/
theorem c7_field_precondition :
    (∀ (α : Type) (upload : α) (contacts : List (List String))
        (fields_in_callhub : List String),
      bulk_create upload contacts fields_in_callhub =
        if ∀ record ∈ contacts, ∀ field ∈ record,
            strLower field ∈ fields_in_callhub.map strLower
        then (.ok upload, 1) else (.error (), 0)) ∧
    _assert_fields_exist [["Custom_Field"]] ["custom_field"] = .ok true := by
  constructor
  · intro α upload contacts fields_in_callhub
    unfold bulk_create
    rw [assert_fields_spec]
    by_cases hc : ∀ record ∈ contacts, ∀ field ∈ record,
        strLower field ∈ fields_in_callhub.map strLower
    · rw [if_pos hc, if_pos hc]
    · rw [if_neg hc, if_neg hc]
  · rw [assert_fields_spec, if_pos]
    intro record hrec field hf
    rw [List.mem_singleton.mp hrec] at hf
    rw [List.mem_singleton.mp hf]
    decide

/-- Witness for C7 at the claim's concrete input: the batch `[["Custom_Field"]]` against
account fields `["custom_field"]` passes and is uploaded with one POST. -/
theorem c7_field_precondition_witness :
    bulk_create (0 : Nat) [["Custom_Field"]] ["custom_field"] = (.ok 0, 1) := by
  have h := c7_field_precondition.1 Nat 0 [["Custom_Field"]] ["custom_field"]
  rw [if_pos] at h
  · exact h
  · intro record hrec field hf
    rw [List.mem_singleton.mp hrec] at hf
    rw [List.mem_singleton.mp hf]
    decide
